import Mathlib

/-!
Shallow embedding of `src/main.py` (Manual Like Exchange API).

The SQLite database is modelled as a `DBState`: the `users` and `requests`
tables are lists of rows kept in insertion (rowid) order, together with the
next AUTOINCREMENT id for each table.  Each FastAPI endpoint becomes a pure
function from a `DBState` (plus its request payload and the current clock
reading, passed explicitly) to either an `ApiError` (the `HTTPException` it
raises) or the successor state.  Pydantic field validation (`ge=1, le=100` on
`points`) runs before the handler body, so it is the first check of
`create_request`.
-/

/-- A row of the `users` table
(`id, telegram_id, username, points, is_vip, created_at`). -/
structure User where
  id : Nat
  telegram_id : Int
  username : String
  points : Int
  is_vip : Bool
  created_at : String
  deriving Repr, DecidableEq, Inhabited

/-- A row of the `requests` table (`id, owner_id, uid, region, proof_url,
points_requested, status, created_at, claimed_by, claim_proof_url,
completed_at`).  Nullable columns are `Option`s. -/
structure Request where
  id : Nat
  owner_id : Nat
  uid : String
  region : String
  proof_url : String
  points_requested : Int
  status : String
  created_at : String
  claimed_by : Option Nat
  claim_proof_url : Option String
  completed_at : Option String
  deriving Repr, DecidableEq, Inhabited

/-- The whole database: both tables in rowid order plus the AUTOINCREMENT
counters. -/
structure DBState where
  users : List User
  requests : List Request
  next_user_id : Nat
  next_request_id : Nat
  deriving Repr, DecidableEq

/-- The freshly initialised database (`init_db` creates empty tables;
AUTOINCREMENT starts at 1). -/
def initState : DBState := ⟨[], [], 1, 1⟩

/-- An `HTTPException` raised by a handler (or a 422 raised by request
validation): status code and detail string. -/
structure ApiError where
  status_code : Nat
  detail : String
  deriving Repr, DecidableEq

/-- The `CreateRequestIn` payload.  `proof_url` is kept as an opaque string. -/
structure CreateRequestIn where
  telegram_id : Int
  uid : String
  region : String
  proof_url : String
  points : Int
  deriving Repr, DecidableEq

/-- `POST /register`.  Looks the caller up by `telegram_id`; if present,
returns "Already registered" and changes nothing; otherwise inserts a new row
with `points = 0` (column default), `is_vip = 0`, `username = payload.username
or ""`. -/
def register (s : DBState) (telegram_id : Int) (username : Option String)
    (now : String) : DBState × String :=
  match s.users.find? (fun u => decide (u.telegram_id = telegram_id)) with
  | some _ => (s, "Already registered")
  | none =>
      ({ s with
          users := s.users ++
            [{ id := s.next_user_id, telegram_id := telegram_id,
               username := username.getD "", points := 0, is_vip := false,
               created_at := now }],
          next_user_id := s.next_user_id + 1 },
       "Registered")

/-- Python's `str.upper()` on the region code: uppercase every character
(character-wise, same action as `String.toUpper`, stated structurally so it
computes by `rfl`). -/
def pyUpper (s : String) : String := ⟨s.data.map Char.toUpper⟩

/-- `POST /request/create`.  Pydantic first rejects `points` outside `1..100`
(422); then the handler: 404 if the owner is unknown, 400 if the owner's
balance is below `points`; otherwise it inserts the new `open` request (region
upper-cased) and debits the owner. -/
def create_request (s : DBState) (p : CreateRequestIn) (now : String) :
    Except ApiError DBState :=
  if ¬ (1 ≤ p.points ∧ p.points ≤ 100) then
    .error { status_code := 422, detail := "points out of range 1..100" }
  else
    match s.users.find? (fun u => decide (u.telegram_id = p.telegram_id)) with
    | none => .error { status_code := 404, detail := "User not registered" }
    | some user =>
        if user.points < p.points then
          .error { status_code := 400, detail := "Not enough points to post request" }
        else
          .ok { s with
                users := s.users.map (fun u =>
                  if u.id = user.id then { u with points := u.points - p.points } else u),
                requests := s.requests ++
                  [{ id := s.next_request_id, owner_id := user.id, uid := p.uid,
                     region := pyUpper p.region, proof_url := p.proof_url,
                     points_requested := p.points, status := "open",
                     created_at := now, claimed_by := none,
                     claim_proof_url := none, completed_at := none }],
                next_request_id := s.next_request_id + 1 }

/-- Semantics of `GET /requests/open`, i.e. of the query
`SELECT ... WHERE status = 'open' ORDER BY created_at DESC` (the handler then
returns the rows unchanged): an admissible result set is any permutation of
the open rows that is sorted by `created_at` descending.  SQLite compares the
TEXT column bytewise — `String` order on these ISO-8601 strings — and leaves
the relative order of rows whose sort keys compare equal unspecified (the
query has no secondary sort key), so the endpoint is modelled as a relation
on result sets, not a function. -/
def IsOpenListing (s : DBState) (out : List Request) : Prop :=
  out.Perm (s.requests.filter (fun r => decide (r.status = "open")))
  ∧ out.Pairwise (fun a b => b.created_at ≤ a.created_at)

/-- `POST /request/claim`.  404 if the request id is unknown, 400 if it is not
`open`, 404 if the claimer is unknown, 400 if the claimer owns the request;
otherwise sets `status = 'claimed'` and `claimed_by`. -/
def claim (s : DBState) (telegram_id : Int) (request_id : Nat) :
    Except ApiError DBState :=
  match s.requests.find? (fun r => decide (r.id = request_id)) with
  | none => .error { status_code := 404, detail := "Request not found" }
  | some req =>
      if req.status ≠ "open" then
        .error { status_code := 400, detail := "Request not open" }
      else
        match s.users.find? (fun u => decide (u.telegram_id = telegram_id)) with
        | none => .error { status_code := 404, detail := "Claimer not registered" }
        | some claimer =>
            if claimer.id = req.owner_id then
              .error { status_code := 400, detail := "Owner cannot claim own request" }
            else
              .ok { s with
                    requests := s.requests.map (fun r =>
                      if r.id = req.id then
                        { r with status := "claimed", claimed_by := some claimer.id }
                      else r) }

/-- `POST /request/confirm`.  404 if the request id is unknown, 400 if it is
not `claimed`, 404 if the caller is unknown, 403 if the caller is not the
recorded claimant; otherwise sets `status = 'completed'`, stores the claim
proof and completion timestamp, and credits the claimant by
`points_requested`. -/
def confirm (s : DBState) (telegram_id : Int) (request_id : Nat)
    (claim_proof_url : String) (now : String) : Except ApiError DBState :=
  match s.requests.find? (fun r => decide (r.id = request_id)) with
  | none => .error { status_code := 404, detail := "Request not found" }
  | some req =>
      if req.status ≠ "claimed" then
        .error { status_code := 400, detail := "Request not in claimed state" }
      else
        match s.users.find? (fun u => decide (u.telegram_id = telegram_id)) with
        | none => .error { status_code := 404, detail := "Claimer not registered" }
        | some claimer =>
            if some claimer.id ≠ req.claimed_by then
              .error { status_code := 403, detail := "Only claimer can confirm" }
            else
              .ok { s with
                    requests := s.requests.map (fun r =>
                      if r.id = req.id then
                        { r with status := "completed",
                                 claim_proof_url := some claim_proof_url,
                                 completed_at := some now }
                      else r),
                    users := s.users.map (fun u =>
                      if u.id = claimer.id then
                        { u with points := u.points + req.points_requested }
                      else u) }

/-- `GET /user/points/{telegram_id}`: read-only balance lookup. -/
def get_points (s : DBState) (telegram_id : Int) : Except ApiError Int :=
  match s.users.find? (fun u => decide (u.telegram_id = telegram_id)) with
  | none => .error { status_code := 404, detail := "User not found" }
  | some u => .ok u.points

/-- `POST /admin/add_points`.  401 on secret mismatch, 404 if the user is
unknown; otherwise adds the (arbitrary, possibly negative) `points` delta to
the user's balance, with no sign or floor check. -/
def admin_add_points (s : DBState) (telegram_id : Int) (points : Int)
    (secret : String) : Except ApiError DBState :=
  if secret ≠ "CHANGE_THIS_SECRET" then
    .error { status_code := 401, detail := "Unauthorized" }
  else
    match s.users.find? (fun u => decide (u.telegram_id = telegram_id)) with
    | none => .error { status_code := 404, detail := "User not found" }
    | some _ =>
        .ok { s with users := s.users.map (fun u =>
          if u.telegram_id = telegram_id then { u with points := u.points + points } else u) }

/-! ### The public interface as a transition system

An HTTP call either succeeds, producing a new state, or raises, leaving the
database as it was (every handler performs all its checks before its first
write).  `step` packages this; `Reachable` is the set of states reachable
from the fresh database by any call sequence. -/

/-- One call at the public interface. -/
inductive Op where
  | register (telegram_id : Int) (username : Option String) (now : String)
  | create (p : CreateRequestIn) (now : String)
  | claim (telegram_id : Int) (request_id : Nat)
  | confirm (telegram_id : Int) (request_id : Nat) (claim_proof_url : String) (now : String)
  | admin (telegram_id : Int) (points : Int) (secret : String)
  | listOpen
  deriving Repr, DecidableEq

/-- The state after a fallible call: the new state on success, the old state
when the handler raised. -/
def okState (s : DBState) : Except ApiError DBState → DBState
  | .ok s' => s'
  | .error _ => s

/-- The state transition of one call. -/
def step (s : DBState) : Op → DBState
  | .register t u n => (register s t u n).1
  | .create p n => okState s (create_request s p n)
  | .claim t r => okState s (claim s t r)
  | .confirm t r pr n => okState s (confirm s t r pr n)
  | .admin t p sec => okState s (admin_add_points s t p sec)
  | .listOpen => s

/-- States reachable from the fresh database by some call sequence. -/
inductive Reachable : DBState → Prop
  | init : Reachable initState
  | next {s : DBState} (op : Op) : Reachable s → Reachable (step s op)

/-- An op is admin-safe when it is not an admin adjustment with a negative
delta. -/
def AdminSafe : Op → Prop
  | .admin _ points _ => 0 ≤ points
  | _ => True

/-- States reachable using only admin-safe calls. -/
inductive ReachableNN : DBState → Prop
  | init : ReachableNN initState
  | next {s : DBState} (op : Op) : ReachableNN s → AdminSafe op → ReachableNN (step s op)


/-- Rank of a request status in the lifecycle order (`open` before `claimed`
before `completed`). -/
def statusRank (st : String) : Nat :=
  if st = "open" then 0 else if st = "claimed" then 1 else 2

/-- Points currently held in escrow by one request: its stake while it is
`open` or `claimed`, nothing once `completed`. -/
def escrowOf (r : Request) : Int :=
  if r.status = "open" ∨ r.status = "claimed" then r.points_requested else 0

/-- Sum of all user balances. -/
def totalBalance (s : DBState) : Int := (s.users.map User.points).sum

/-- Sum of the stakes of all open-or-claimed requests. -/
def totalEscrow (s : DBState) : Int := (s.requests.map escrowOf).sum

/-- The conserved ledger quantity: all balances plus all escrowed stakes. -/
def ledgerTotal (s : DBState) : Int := totalBalance s + totalEscrow s

/-- Whether a call succeeded. -/
def isOkE (e : Except ApiError DBState) : Bool :=
  match e with
  | .ok _ => true
  | .error _ => false

/-! ### A small concrete scenario (used to evaluate the theorems on data)

User 1 registers, the admin grants 50 points, user 1 stakes 30 points on a
request, user 2 registers, claims it and confirms it. -/

def pA : CreateRequestIn := ⟨1, "2476897412", "IND", "http://proof", 30⟩

def pB : CreateRequestIn := ⟨1, "999", "IND", "http://proof2", 5⟩

def exS1 : DBState := step initState (Op.register 1 none "t1")

def exS2 : DBState := step exS1 (Op.admin 1 50 "CHANGE_THIS_SECRET")

def exS3 : DBState := step exS2 (Op.create pA "t2")

def exS4 : DBState := step exS3 (Op.register 2 (some "bob") "t3")

def exS5 : DBState := step exS4 (Op.claim 2 1)

def exS6 : DBState := step exS5 (Op.confirm 2 1 "http://claimproof" "t4")

/-- `exS3` plus a second open request created at the same timestamp `"t2"`,
so the open-requests query has a tie on its sort key. -/
def exT : DBState := step exS3 (Op.create pB "t2")

/-! ### The reachable-state invariant -/

/-- Everything that holds of every reachable database state: rowids are
strictly increasing (in particular unique) and below the AUTOINCREMENT
counter, `telegram_id` is unique (its SQL `UNIQUE` constraint), every request
status is one of the three legal states, `open` requests are unclaimed, and
every stake passed the `1..100` validation. -/
structure GoodState (s : DBState) : Prop where
  users_id_bound : ∀ u ∈ s.users, u.id < s.next_user_id
  users_id_sorted : s.users.Pairwise (fun a b => a.id < b.id)
  users_tg_distinct : s.users.Pairwise (fun a b => a.telegram_id ≠ b.telegram_id)
  reqs_id_bound : ∀ r ∈ s.requests, r.id < s.next_request_id
  reqs_id_sorted : s.requests.Pairwise (fun a b => a.id < b.id)
  reqs_status : ∀ r ∈ s.requests, r.status = "open" ∨ r.status = "claimed" ∨ r.status = "completed"
  reqs_open_unclaimed : ∀ r ∈ s.requests, r.status = "open" → r.claimed_by = none
  reqs_points : ∀ r ∈ s.requests, 1 ≤ r.points_requested ∧ r.points_requested ≤ 100

/-! ### Generic list lemmas for row updates (`UPDATE ... WHERE key = t`) -/

/-- In a list whose rows have pairwise-distinct keys, two members with the
same key are the same row. -/
theorem mem_eq_of_pairwise_key {α β : Type} (key : α → β) {l : List α}
    (hl : l.Pairwise (fun a b => key a ≠ key b)) {x y : α}
    (hx : x ∈ l) (hy : y ∈ l) (hxy : key x = key y) : x = y := by
  induction l with
  | nil => cases hx
  | cons h t ih =>
      rcases List.pairwise_cons.mp hl with ⟨hh, ht⟩
      rcases List.mem_cons.mp hx with hx' | hx' <;>
        rcases List.mem_cons.mp hy with hy' | hy'
      · rw [hx', hy']
      · exact absurd hxy (hx' ▸ hh y hy')
      · exact absurd hxy.symm (hy' ▸ hh x hx')
      · exact ih ht hx' hy'

/-- An update targeting a key held by no row is the identity. -/
theorem map_update_id {α β : Type} [DecidableEq β] (key : α → β) (g : α → α) (t : β)
    {l : List α} (h : ∀ y ∈ l, key y ≠ t) :
    l.map (fun y => if key y = t then g y else y) = l := by
  induction l with
  | nil => rfl
  | cons a l ih =>
      simp only [List.map_cons, if_neg (h a (List.mem_cons_self a l)),
        ih (fun y hy => h y (List.mem_cons_of_mem a hy))]

/-- Updating the (unique) row with key `t` changes a summed column by exactly
the change on that row. -/
theorem sum_map_update {α β : Type} [DecidableEq β] (key : α → β) (val : α → Int)
    (g : α → α) (t : β) :
    ∀ {l : List α}, l.Pairwise (fun a b => key a ≠ key b) →
      ∀ {x : α}, x ∈ l → key x = t →
      ((l.map (fun y => if key y = t then g y else y)).map val).sum
        = (l.map val).sum + (val (g x) - val x)
  | [], _, _, hx, _ => by cases hx
  | a :: l, hl, x, hx, ht => by
      rcases List.pairwise_cons.mp hl with ⟨hh, htail⟩
      rcases List.mem_cons.mp hx with hx' | hx'
      · subst hx'
        rw [List.map_cons, if_pos ht, List.map_cons, List.sum_cons,
          map_update_id key g t (fun y hy => ht ▸ (hh y hy).symm),
          List.map_cons, List.sum_cons]
        ring
      · rw [List.map_cons, if_neg (fun hat => (hh x hx') (hat.trans ht.symm)),
          List.map_cons, List.sum_cons,
          sum_map_update key val g t htail hx' ht,
          List.map_cons, List.sum_cons]
        ring

/-- `find?` by key commutes with an update that preserves every key. -/
theorem find?_map_key {α β : Type} [DecidableEq β] (key : α → β) (f : α → α)
    (hf : ∀ x, key (f x) = key x) (t : β) (l : List α) :
    (l.map f).find? (fun y => decide (key y = t))
      = (l.find? (fun y => decide (key y = t))).map f := by
  rw [List.find?_map]
  have hp : ((fun y => decide (key y = t)) ∘ f) = (fun y => decide (key y = t)) := by
    funext x
    simp [Function.comp, hf]
  rw [hp]

theorem goodState_init : GoodState initState := by
  constructor <;> simp [initState]

/-- Users have pairwise-distinct internal ids. -/
theorem GoodState.users_id_distinct {s : DBState} (hs : GoodState s) :
    s.users.Pairwise (fun a b => a.id ≠ b.id) :=
  hs.users_id_sorted.imp Nat.ne_of_lt

/-- Requests have pairwise-distinct internal ids. -/
theorem GoodState.reqs_id_distinct {s : DBState} (hs : GoodState s) :
    s.requests.Pairwise (fun a b => a.id ≠ b.id) :=
  hs.reqs_id_sorted.imp Nat.ne_of_lt

theorem goodState_register (s : DBState) (t : Int) (un : Option String) (n : String)
    (hs : GoodState s) : GoodState (register s t un n).1 := by
  unfold register
  cases hfind : s.users.find? (fun u => decide (u.telegram_id = t)) with
  | some u => exact hs
  | none =>
      have hall : ∀ u ∈ s.users, u.telegram_id ≠ t := by
        intro u hu
        simpa using List.find?_eq_none.mp hfind u hu
      refine ⟨?_, ?_, ?_, hs.reqs_id_bound, hs.reqs_id_sorted, hs.reqs_status,
        hs.reqs_open_unclaimed, hs.reqs_points⟩
      · intro u hu
        rcases List.mem_append.mp hu with h | h
        · exact Nat.lt_succ_of_lt (hs.users_id_bound u h)
        · simp at h
          subst h
          exact Nat.lt_succ_self _
      · rw [List.pairwise_append]
        refine ⟨hs.users_id_sorted, by simp, ?_⟩
        intro a ha b hb
        simp at hb
        subst hb
        exact hs.users_id_bound a ha
      · rw [List.pairwise_append]
        refine ⟨hs.users_tg_distinct, by simp, ?_⟩
        intro a ha b hb
        simp at hb
        subst hb
        exact hall a ha

theorem goodState_create (s : DBState) (p : CreateRequestIn) (n : String)
    (hs : GoodState s) : GoodState (okState s (create_request s p n)) := by
  unfold create_request
  split
  · exact hs
  · rename_i hv
    rw [not_not] at hv
    cases hfind : s.users.find? (fun u => decide (u.telegram_id = p.telegram_id)) with
    | none => exact hs
    | some user =>
        dsimp only
        split
        · exact hs
        · refine ⟨?_, ?_, ?_, ?_, ?_, ?_, ?_, ?_⟩
          · intro u hu
            rcases List.mem_map.mp hu with ⟨x, hx, rfl⟩
            have hb := hs.users_id_bound x hx
            split <;> exact hb
          · exact List.pairwise_map.mpr (hs.users_id_sorted.imp
              (fun h => by split <;> split <;> exact h))
          · exact List.pairwise_map.mpr (hs.users_tg_distinct.imp
              (fun h => by split <;> split <;> exact h))
          · intro r hr
            rcases List.mem_append.mp hr with h | h
            · exact Nat.lt_succ_of_lt (hs.reqs_id_bound r h)
            · simp at h
              subst h
              exact Nat.lt_succ_self _
          · dsimp only [okState]
            rw [List.pairwise_append]
            refine ⟨hs.reqs_id_sorted, by simp, ?_⟩
            intro a ha b hb
            simp at hb
            subst hb
            exact hs.reqs_id_bound a ha
          · intro r hr
            rcases List.mem_append.mp hr with h | h
            · exact hs.reqs_status r h
            · simp at h
              subst h
              exact Or.inl rfl
          · intro r hr
            rcases List.mem_append.mp hr with h | h
            · exact hs.reqs_open_unclaimed r h
            · simp at h
              subst h
              intro
              rfl
          · intro r hr
            rcases List.mem_append.mp hr with h | h
            · exact hs.reqs_points r h
            · simp at h
              subst h
              exact hv

theorem goodState_claim (s : DBState) (t : Int) (rid : Nat)
    (hs : GoodState s) : GoodState (okState s (claim s t rid)) := by
  unfold claim
  cases hfind : s.requests.find? (fun r => decide (r.id = rid)) with
  | none => exact hs
  | some req =>
      dsimp only
      split
      · exact hs
      · cases hfu : s.users.find? (fun u => decide (u.telegram_id = t)) with
        | none => exact hs
        | some claimer =>
            dsimp only
            split
            · exact hs
            · refine ⟨hs.users_id_bound, hs.users_id_sorted, hs.users_tg_distinct,
                ?_, ?_, ?_, ?_, ?_⟩
              · intro r hr
                rcases List.mem_map.mp hr with ⟨x, hx, rfl⟩
                have hb := hs.reqs_id_bound x hx
                split <;> exact hb
              · exact List.pairwise_map.mpr (hs.reqs_id_sorted.imp
                  (fun h => by split <;> split <;> exact h))
              · intro r hr
                rcases List.mem_map.mp hr with ⟨x, hx, rfl⟩
                split
                · exact Or.inr (Or.inl rfl)
                · exact hs.reqs_status x hx
              · intro r hr
                rcases List.mem_map.mp hr with ⟨x, hx, rfl⟩
                split
                · intro h
                  exact absurd (show "claimed" = "open" from h) (by decide)
                · exact hs.reqs_open_unclaimed x hx
              · intro r hr
                rcases List.mem_map.mp hr with ⟨x, hx, rfl⟩
                split <;> exact hs.reqs_points x hx

theorem goodState_confirm (s : DBState) (t : Int) (rid : Nat) (pr n : String)
    (hs : GoodState s) : GoodState (okState s (confirm s t rid pr n)) := by
  unfold confirm
  cases hfind : s.requests.find? (fun r => decide (r.id = rid)) with
  | none => exact hs
  | some req =>
      dsimp only
      split
      · exact hs
      · cases hfu : s.users.find? (fun u => decide (u.telegram_id = t)) with
        | none => exact hs
        | some claimer =>
            dsimp only
            split
            · exact hs
            · refine ⟨?_, ?_, ?_, ?_, ?_, ?_, ?_, ?_⟩
              · intro u hu
                rcases List.mem_map.mp hu with ⟨x, hx, rfl⟩
                have hb := hs.users_id_bound x hx
                split <;> exact hb
              · exact List.pairwise_map.mpr (hs.users_id_sorted.imp
                  (fun h => by split <;> split <;> exact h))
              · exact List.pairwise_map.mpr (hs.users_tg_distinct.imp
                  (fun h => by split <;> split <;> exact h))
              · intro r hr
                rcases List.mem_map.mp hr with ⟨x, hx, rfl⟩
                have hb := hs.reqs_id_bound x hx
                split <;> exact hb
              · exact List.pairwise_map.mpr (hs.reqs_id_sorted.imp
                  (fun h => by split <;> split <;> exact h))
              · intro r hr
                rcases List.mem_map.mp hr with ⟨x, hx, rfl⟩
                split
                · exact Or.inr (Or.inr rfl)
                · exact hs.reqs_status x hx
              · intro r hr
                rcases List.mem_map.mp hr with ⟨x, hx, rfl⟩
                split
                · intro h
                  exact absurd (show "completed" = "open" from h) (by decide)
                · exact hs.reqs_open_unclaimed x hx
              · intro r hr
                rcases List.mem_map.mp hr with ⟨x, hx, rfl⟩
                split <;> exact hs.reqs_points x hx

theorem goodState_admin (s : DBState) (t : Int) (pts : Int) (sec : String)
    (hs : GoodState s) : GoodState (okState s (admin_add_points s t pts sec)) := by
  unfold admin_add_points
  split
  · exact hs
  · cases hfu : s.users.find? (fun u => decide (u.telegram_id = t)) with
    | none => exact hs
    | some u =>
        dsimp only
        refine ⟨?_, ?_, ?_, hs.reqs_id_bound, hs.reqs_id_sorted, hs.reqs_status,
          hs.reqs_open_unclaimed, hs.reqs_points⟩
        · intro x hx
          rcases List.mem_map.mp hx with ⟨y, hy, rfl⟩
          have hb := hs.users_id_bound y hy
          split <;> exact hb
        · exact List.pairwise_map.mpr (hs.users_id_sorted.imp
            (fun h => by split <;> split <;> exact h))
        · exact List.pairwise_map.mpr (hs.users_tg_distinct.imp
            (fun h => by split <;> split <;> exact h))

/-- Every state reachable at the public interface satisfies the invariant. -/
theorem goodState_step (s : DBState) (op : Op) (hs : GoodState s) :
    GoodState (step s op) := by
  cases op with
  | register t u n => exact goodState_register s t u n hs
  | create p n => exact goodState_create s p n hs
  | claim t r => exact goodState_claim s t r hs
  | confirm t r pr n => exact goodState_confirm s t r pr n hs
  | admin t p sec => exact goodState_admin s t p sec hs
  | listOpen => exact hs

theorem reachable_goodState {s : DBState} (hs : Reachable s) : GoodState s := by
  induction hs with
  | init => exact goodState_init
  | next op _ ih => exact goodState_step _ op ih

/-! ### Claim C1: balances and negative admin deltas -/

theorem ReachableNN.toReachable {s : DBState} (h : ReachableNN s) : Reachable s := by
  induction h with
  | init => exact Reachable.init
  | next op _ _ ih => exact Reachable.next op ih

theorem nonneg_step (s : DBState) (op : Op) (hg : GoodState s) (hsafe : AdminSafe op)
    (h : ∀ u ∈ s.users, 0 ≤ u.points) : ∀ u ∈ (step s op).users, 0 ≤ u.points := by
  cases op with
  | register t un n =>
      dsimp only [step]
      unfold register
      cases hfind : s.users.find? (fun u => decide (u.telegram_id = t)) with
      | some u => exact h
      | none =>
          dsimp only
          intro u hu
          rcases List.mem_append.mp hu with h1 | h1
          · exact h u h1
          · simp at h1
            subst h1
            exact le_refl 0
  | create p n =>
      dsimp only [step]
      unfold create_request
      split
      · exact h
      · cases hfind : s.users.find? (fun u => decide (u.telegram_id = p.telegram_id)) with
        | none => exact h
        | some user =>
            dsimp only
            split
            · exact h
            · rename_i hlt
              dsimp only [okState]
              intro u hu
              rcases List.mem_map.mp hu with ⟨x, hx, rfl⟩
              split
              · rename_i hid
                have hx_eq : x = user := mem_eq_of_pairwise_key User.id
                  hg.users_id_distinct hx (List.mem_of_find?_eq_some hfind) hid
                subst hx_eq
                show 0 ≤ x.points - p.points
                rw [not_lt] at hlt
                omega
              · exact h x hx
  | claim t rid =>
      dsimp only [step]
      unfold claim
      cases hfind : s.requests.find? (fun r => decide (r.id = rid)) with
      | none => exact h
      | some req =>
          dsimp only
          split
          · exact h
          · cases hfu : s.users.find? (fun u => decide (u.telegram_id = t)) with
            | none => exact h
            | some claimer =>
                dsimp only
                split
                · exact h
                · exact h
  | confirm t rid pr n =>
      dsimp only [step]
      unfold confirm
      cases hfind : s.requests.find? (fun r => decide (r.id = rid)) with
      | none => exact h
      | some req =>
          dsimp only
          split
          · exact h
          · cases hfu : s.users.find? (fun u => decide (u.telegram_id = t)) with
            | none => exact h
            | some claimer =>
                dsimp only
                split
                · exact h
                · dsimp only [okState]
                  intro u hu
                  rcases List.mem_map.mp hu with ⟨x, hx, rfl⟩
                  have hpts := (hg.reqs_points req (List.mem_of_find?_eq_some hfind)).1
                  have hx0 := h x hx
                  split
                  · show 0 ≤ x.points + req.points_requested
                    omega
                  · exact hx0
  | admin t d sec =>
      dsimp only [step]
      unfold admin_add_points
      split
      · exact h
      · cases hfu : s.users.find? (fun u => decide (u.telegram_id = t)) with
        | none => exact h
        | some u =>
            dsimp only [okState, AdminSafe] at hsafe ⊢
            intro x hx
            rcases List.mem_map.mp hx with ⟨y, hy, rfl⟩
            have hy0 := h y hy
            split
            · show 0 ≤ y.points + d
              omega
            · exact hy0
  | listOpen => exact h

/-- C1 (counterexample): the claim fails as stated.  Register user 1 (balance
0), then call `admin_add_points` with delta `-1` and the correct secret: the
resulting state is reachable at the public interface, yet user 1's balance is
`-1 < 0`.  The admin endpoint applies an arbitrary signed delta with no floor
check. -/
theorem C1_counterexample :
    Reachable (step (step initState (Op.register 1 none "t0"))
        (Op.admin 1 (-1) "CHANGE_THIS_SECRET"))
    ∧ (step (step initState (Op.register 1 none "t0"))
        (Op.admin 1 (-1) "CHANGE_THIS_SECRET")).users.map User.points = [-1] :=
  ⟨Reachable.next _ (Reachable.next _ Reachable.init), rfl⟩

/-- C1 (amended): for every sequence of operations at the public interface in
which every `admin_add_points` call has a non-negative delta, every user's
balance is always ≥ 0.  (`register`, `create_request`, `claim` and `confirm`
alone can never drive a balance negative; only a negative admin delta can.) -/
theorem C1_balances_nonneg {s : DBState} (hs : ReachableNN s) :
    ∀ u ∈ s.users, 0 ≤ u.points := by
  induction hs with
  | init =>
      intro u hu
      cases hu
  | next op h hsafe ih =>
      exact nonneg_step _ op (reachable_goodState h.toReachable) hsafe ih

/-- C1 witness: the amended theorem evaluated on a concrete admin-safe run
(register user 1, admin grants 50): the single user's balance is ≥ 0. -/
theorem C1_balances_nonneg_witness : 0 ≤ exS2.users.headI.points :=
  C1_balances_nonneg
    (ReachableNN.next (Op.admin 1 50 "CHANGE_THIS_SECRET")
      (ReachableNN.next (Op.register 1 none "t1") ReachableNN.init (show True from trivial))
      (show (0 : Int) ≤ 50 by norm_num))
    exS2.users.headI (by decide)

/-! ### Claims C6, C7: error handling -/

theorem okState_error (s : DBState) (e : ApiError) : okState s (.error e) = s := rfl

theorem okState_ok (s s' : DBState) : okState s (.ok s') = s' := rfl

/-- C7: `create` fails with 422 (InvalidAmount) when `points` is outside
`1..100`, with 404 "User not registered" (NotRegistered) when the owner's
telegram id is unknown, and with 400 "Not enough points" (InsufficientFunds)
when the owner's balance is below `points`; on every failure the state is
unchanged — no request inserted, no balance changed. -/
theorem C7_create_failure_modes (s : DBState) (p : CreateRequestIn) (now : String) :
    (¬ (1 ≤ p.points ∧ p.points ≤ 100) →
        create_request s p now = .error ⟨422, "points out of range 1..100"⟩)
    ∧ ((1 ≤ p.points ∧ p.points ≤ 100) →
        s.users.find? (fun u => decide (u.telegram_id = p.telegram_id)) = none →
        create_request s p now = .error ⟨404, "User not registered"⟩)
    ∧ (∀ user : User, (1 ≤ p.points ∧ p.points ≤ 100) →
        s.users.find? (fun u => decide (u.telegram_id = p.telegram_id)) = some user →
        user.points < p.points →
        create_request s p now = .error ⟨400, "Not enough points to post request"⟩)
    ∧ (∀ e : ApiError, create_request s p now = .error e →
        step s (Op.create p now) = s) := by
  refine ⟨?_, ?_, ?_, ?_⟩
  · intro h1
    unfold create_request
    rw [if_pos h1]
  · intro h1 h2
    unfold create_request
    rw [if_neg (not_not_intro h1), h2]
  · intro user h1 h2 h3
    unfold create_request
    rw [if_neg (not_not_intro h1), h2]
    dsimp only
    rw [if_pos h3]
  · intro e he
    show okState s (create_request s p now) = s
    rw [he, okState_error]

/-- C7 witness: the three failure modes evaluated concretely (`points = 0`
from anyone; `points = 5` from an unregistered user; `points = 5` from
registered user 1 whose balance is 0), each leaving the state unchanged. -/
theorem C7_witness :
    create_request initState ⟨1, "u", "IND", "http://x", 0⟩ "t" =
      .error ⟨422, "points out of range 1..100"⟩
    ∧ create_request initState ⟨1, "u", "IND", "http://x", 5⟩ "t" =
      .error ⟨404, "User not registered"⟩
    ∧ create_request exS1 ⟨1, "u", "IND", "http://x", 5⟩ "t" =
      .error ⟨400, "Not enough points to post request"⟩
    ∧ step exS1 (Op.create ⟨1, "u", "IND", "http://x", 5⟩ "t") = exS1 :=
  ⟨(C7_create_failure_modes initState ⟨1, "u", "IND", "http://x", 0⟩ "t").1 (by decide),
   (C7_create_failure_modes initState ⟨1, "u", "IND", "http://x", 5⟩ "t").2.1
     (by decide) (by rfl),
   (C7_create_failure_modes exS1 ⟨1, "u", "IND", "http://x", 5⟩ "t").2.2.1
     ⟨1, 1, "", 0, false, "t1"⟩ (by decide) (by rfl) (by decide),
   (C7_create_failure_modes exS1 ⟨1, "u", "IND", "http://x", 5⟩ "t").2.2.2
     ⟨400, "Not enough points to post request"⟩
     ((C7_create_failure_modes exS1 ⟨1, "u", "IND", "http://x", 5⟩ "t").2.2.1
       ⟨1, 1, "", 0, false, "t1"⟩ (by decide) (by rfl) (by decide))⟩

/-- C6: the owner cannot claim their own open request — the call fails with
400 "Owner cannot claim own request" (SelfClaim) and the state is left
unchanged; and any registered user other than the recorded claimant cannot
confirm a claimed request — the call fails with 403 "Only claimer can
confirm" (Forbidden) and the state, hence every request and balance, is left
unchanged. -/
theorem C6_selfclaim_forbidden (s : DBState) :
    (∀ (t : Int) (rid : Nat) (req : Request) (c : User),
        s.requests.find? (fun r => decide (r.id = rid)) = some req →
        req.status = "open" →
        s.users.find? (fun u => decide (u.telegram_id = t)) = some c →
        c.id = req.owner_id →
        claim s t rid = .error ⟨400, "Owner cannot claim own request"⟩
          ∧ step s (Op.claim t rid) = s)
    ∧ (∀ (t : Int) (rid : Nat) (pr now : String) (req : Request) (c : User) (k : Nat),
        s.requests.find? (fun r => decide (r.id = rid)) = some req →
        req.status = "claimed" →
        s.users.find? (fun u => decide (u.telegram_id = t)) = some c →
        req.claimed_by = some k →
        c.id ≠ k →
        confirm s t rid pr now = .error ⟨403, "Only claimer can confirm"⟩
          ∧ step s (Op.confirm t rid pr now) = s) := by
  constructor
  · intro t rid req c h1 h2 h3 h4
    have herr : claim s t rid = .error ⟨400, "Owner cannot claim own request"⟩ := by
      unfold claim
      rw [h1]
      dsimp only
      rw [if_neg (not_not_intro h2)]
      rw [h3]
      dsimp only
      rw [if_pos h4]
    refine ⟨herr, ?_⟩
    show okState s (claim s t rid) = s
    rw [herr, okState_error]
  · intro t rid pr now req c k h1 h2 h3 h4 h5
    have herr : confirm s t rid pr now = .error ⟨403, "Only claimer can confirm"⟩ := by
      unfold confirm
      rw [h1]
      dsimp only
      rw [if_neg (not_not_intro h2)]
      rw [h3]
      dsimp only
      rw [h4, if_pos (fun hh => h5 (Option.some.inj hh))]
    refine ⟨herr, ?_⟩
    show okState s (confirm s t rid pr now) = s
    rw [herr, okState_error]

/-- C6 witness: in the concrete scenario, owner 1 claiming their own open
request is rejected with SelfClaim, and owner 1 (not the claimant, user 2)
confirming the claimed request is rejected with Forbidden. -/
theorem C6_witness :
    claim exS3 1 1 = .error ⟨400, "Owner cannot claim own request"⟩
    ∧ confirm exS5 1 1 "http://z" "t9" = .error ⟨403, "Only claimer can confirm"⟩ :=
  ⟨((C6_selfclaim_forbidden exS3).1 1 1 exS3.requests.headI
      ⟨1, 1, "", 20, false, "t1"⟩ (by rfl) (by rfl) (by rfl) (by rfl)).1,
   ((C6_selfclaim_forbidden exS5).2 1 1 "http://z" "t9" exS5.requests.headI
      ⟨1, 1, "", 20, false, "t1"⟩ 2 (by rfl) (by rfl) (by rfl) (by rfl) (by decide)).1⟩

/-! ### Claims C4, C3: claim and confirm success paths -/

/-- C4: claiming an open request by a registered user other than the owner
succeeds, sets `status = "claimed"` and `claimed_by` to the claimant, leaves
the users table (hence every balance) untouched, and a second claim on the
same request — by anyone — fails with 400 "Request not open" (InvalidState). -/
theorem C4_claim_success (s : DBState) (t : Int) (rid : Nat) (req : Request) (c : User)
    (hreq : s.requests.find? (fun r => decide (r.id = rid)) = some req)
    (hopen : req.status = "open")
    (hc : s.users.find? (fun u => decide (u.telegram_id = t)) = some c)
    (hne : c.id ≠ req.owner_id) :
    ∃ s', claim s t rid = .ok s'
      ∧ s'.users = s.users
      ∧ s'.requests = s.requests.map (fun r =>
          if r.id = req.id then { r with status := "claimed", claimed_by := some c.id } else r)
      ∧ s'.requests.find? (fun r => decide (r.id = rid)) =
          some { req with status := "claimed", claimed_by := some c.id }
      ∧ (∀ t2 : Int, claim s' t2 rid = .error ⟨400, "Request not open"⟩) := by
  have hok : claim s t rid = .ok { s with requests := s.requests.map (fun r =>
      if r.id = req.id then { r with status := "claimed", claimed_by := some c.id } else r) } := by
    unfold claim
    rw [hreq]
    dsimp only
    rw [if_neg (not_not_intro hopen)]
    rw [hc]
    dsimp only
    rw [if_neg hne]
  have hfind2 : (s.requests.map (fun r =>
      if r.id = req.id then { r with status := "claimed", claimed_by := some c.id } else r)).find?
        (fun r => decide (r.id = rid)) =
      some { req with status := "claimed", claimed_by := some c.id } := by
    rw [find?_map_key Request.id
      (fun r => if r.id = req.id then { r with status := "claimed", claimed_by := some c.id } else r)
      (fun x => by dsimp only; split <;> rfl) rid s.requests, hreq, Option.map_some']
    rw [if_pos rfl]
  refine ⟨_, hok, rfl, rfl, hfind2, ?_⟩
  intro t2
  unfold claim
  dsimp only
  rw [hfind2]
  dsimp only
  rw [if_pos (show ({ req with status := "claimed", claimed_by := some c.id } : Request).status ≠ "open" from by
    intro h
    exact absurd (show "claimed" = "open" from h) (by decide))]

/-- C4 witness: in the concrete scenario, user 2 claims request 1; the claim
succeeds, balances are untouched, the request is recorded as claimed by user
2, and a second claim by user 1 is rejected as not open. -/
theorem C4_witness :
    claim exS4 2 1 = .ok exS5
    ∧ exS5.users = exS4.users
    ∧ claim exS5 1 1 = .error ⟨400, "Request not open"⟩ := by
  obtain ⟨s', h1, h2, h3, _, h5⟩ :=
    C4_claim_success exS4 2 1 exS4.requests.headI ⟨2, 2, "bob", 0, false, "t3"⟩
      (by rfl) (by rfl) (by rfl) (by decide)
  have hs5 : exS5 = s' := by
    show okState exS4 (claim exS4 2 1) = s'
    rw [h1, okState_ok]
  refine ⟨hs5 ▸ h1, ?_, hs5 ▸ h5 1⟩
  rw [hs5, h2]

/-- C3: confirming a claimed request as the recorded claimant succeeds: the
request becomes `completed` with the supplied claim proof and completion
timestamp stored, the claimant's balance increases by exactly
`points_requested`, every other user's row is unchanged, and a second confirm
on the same request fails with 400 "Request not in claimed state"
(InvalidState) leaving the state — hence every balance — unchanged. -/
theorem C3_confirm_success (s : DBState) (hs : Reachable s) (t : Int) (rid : Nat)
    (pr now : String) (req : Request) (c : User)
    (hreq : s.requests.find? (fun r => decide (r.id = rid)) = some req)
    (hst : req.status = "claimed")
    (hc : s.users.find? (fun u => decide (u.telegram_id = t)) = some c)
    (hcb : req.claimed_by = some c.id) :
    ∃ s', confirm s t rid pr now = .ok s'
      ∧ s'.requests.find? (fun r => decide (r.id = rid)) =
          some { req with status := "completed", claim_proof_url := some pr,
                          completed_at := some now }
      ∧ s'.users = s.users.map (fun u =>
          if u.id = c.id then { u with points := u.points + req.points_requested } else u)
      ∧ (∀ v ∈ s.users,
          (v = c → { v with points := v.points + req.points_requested } ∈ s'.users)
          ∧ (v ≠ c → v ∈ s'.users))
      ∧ (∀ (t2 : Int) (pr2 now2 : String),
          confirm s' t2 rid pr2 now2 = .error ⟨400, "Request not in claimed state"⟩
            ∧ step s' (Op.confirm t2 rid pr2 now2) = s') := by
  have hok : confirm s t rid pr now = .ok { s with
      requests := s.requests.map (fun r =>
        if r.id = req.id then
          { r with status := "completed", claim_proof_url := some pr,
                   completed_at := some now } else r),
      users := s.users.map (fun u =>
        if u.id = c.id then { u with points := u.points + req.points_requested } else u) } := by
    unfold confirm
    rw [hreq]
    dsimp only
    rw [if_neg (not_not_intro hst)]
    rw [hc]
    dsimp only
    rw [if_neg (not_not_intro hcb.symm)]
  have hfind2 : (s.requests.map (fun r =>
      if r.id = req.id then
        { r with status := "completed", claim_proof_url := some pr,
                 completed_at := some now } else r)).find?
        (fun r => decide (r.id = rid)) =
      some { req with status := "completed", claim_proof_url := some pr,
                      completed_at := some now } := by
    rw [find?_map_key Request.id
      (fun r => if r.id = req.id then
        { r with status := "completed", claim_proof_url := some pr,
                 completed_at := some now } else r)
      (fun x => by dsimp only; split <;> rfl) rid s.requests, hreq, Option.map_some']
    rw [if_pos rfl]
  refine ⟨_, hok, hfind2, rfl, ?_, ?_⟩
  · intro v hv
    constructor
    · intro hvc
      rw [hvc]
      have hmem := List.mem_map_of_mem (fun u =>
        if u.id = c.id then { u with points := u.points + req.points_requested } else u)
        (List.mem_of_find?_eq_some hc)
      dsimp only at hmem
      rwa [if_pos rfl] at hmem
    · intro hvc
      have hvid : v.id ≠ c.id := fun hid =>
        hvc (mem_eq_of_pairwise_key User.id (reachable_goodState hs).users_id_distinct
          hv (List.mem_of_find?_eq_some hc) hid)
      have hmem := List.mem_map_of_mem (fun u =>
        if u.id = c.id then { u with points := u.points + req.points_requested } else u) hv
      dsimp only at hmem
      rwa [if_neg hvid] at hmem
  · intro t2 pr2 now2
    have hne2 : ({ req with status := "completed", claim_proof_url := some pr, completed_at := some now } : Request).status ≠ "claimed" := by
      intro h
      exact absurd (show "completed" = "claimed" from h) (by decide)
    have herr : confirm { s with
        requests := s.requests.map (fun r =>
          if r.id = req.id then
            { r with status := "completed", claim_proof_url := some pr,
                     completed_at := some now } else r),
        users := s.users.map (fun u =>
          if u.id = c.id then { u with points := u.points + req.points_requested } else u) }
        t2 rid pr2 now2 = .error ⟨400, "Request not in claimed state"⟩ := by
      unfold confirm
      dsimp only
      rw [hfind2]
      dsimp only
      rw [if_pos hne2]
    refine ⟨herr, ?_⟩
    show okState _ (confirm _ t2 rid pr2 now2) = _
    rw [herr, okState_error]

/-- C3 witness: user 2 confirms claimed request 1 in the concrete scenario:
the request completes, user 2's balance rises from 0 to 30 (owner 1 stays at
20), and a second confirm is rejected as not in claimed state. -/
theorem C3_witness :
    confirm exS5 2 1 "http://claimproof" "t4" = .ok exS6
    ∧ exS6.users.map User.points = [20, 30]
    ∧ confirm exS6 2 1 "http://claimproof" "t5" =
        .error ⟨400, "Request not in claimed state"⟩ := by
  obtain ⟨s', h1, h2, h3, h4, h5⟩ :=
    C3_confirm_success exS5 (Reachable.next _ (Reachable.next _ (Reachable.next _
        (Reachable.next _ (Reachable.next _ Reachable.init)))))
      2 1 "http://claimproof" "t4" exS5.requests.headI ⟨2, 2, "bob", 0, false, "t3"⟩
      (by rfl) (by rfl) (by rfl) (by rfl)
  have hs6 : exS6 = s' := by
    show okState exS5 (confirm exS5 2 1 "http://claimproof" "t4") = s'
    rw [h1, okState_ok]
  exact ⟨hs6 ▸ h1, by rfl, hs6 ▸ (h5 2 "http://claimproof" "t5").1⟩

/-! ### Claims C2, C8: create success and register idempotence -/

/-- C2: for a registered owner with balance ≥ `points` and `points` in
`1..100`, `create` succeeds: it appends exactly one new request — `open`,
unclaimed, with the region upper-cased and the stake fixed at `points` — and
debits the owner by exactly `points` while every other user's row is
unchanged. -/
theorem C2_create_success (s : DBState) (hs : Reachable s) (p : CreateRequestIn)
    (now : String) (u : User)
    (hrange : 1 ≤ p.points ∧ p.points ≤ 100)
    (hu : s.users.find? (fun x => decide (x.telegram_id = p.telegram_id)) = some u)
    (hbal : p.points ≤ u.points) :
    ∃ s', create_request s p now = .ok s'
      ∧ s'.requests = s.requests ++
          [{ id := s.next_request_id, owner_id := u.id, uid := p.uid,
             region := pyUpper p.region, proof_url := p.proof_url,
             points_requested := p.points, status := "open", created_at := now,
             claimed_by := none, claim_proof_url := none, completed_at := none }]
      ∧ s'.users = s.users.map (fun v =>
          if v.id = u.id then { v with points := v.points - p.points } else v)
      ∧ (∀ v ∈ s.users,
          (v = u → { v with points := v.points - p.points } ∈ s'.users)
          ∧ (v ≠ u → v ∈ s'.users)) := by
  have hok : create_request s p now = .ok { s with
      users := s.users.map (fun v =>
        if v.id = u.id then { v with points := v.points - p.points } else v),
      requests := s.requests ++
        [{ id := s.next_request_id, owner_id := u.id, uid := p.uid,
           region := pyUpper p.region, proof_url := p.proof_url,
           points_requested := p.points, status := "open", created_at := now,
           claimed_by := none, claim_proof_url := none, completed_at := none }],
      next_request_id := s.next_request_id + 1 } := by
    unfold create_request
    rw [if_neg (not_not_intro hrange), hu]
    dsimp only
    rw [if_neg (not_lt.mpr hbal)]
  refine ⟨_, hok, rfl, rfl, ?_⟩
  intro v hv
  constructor
  · intro hvu
    rw [hvu]
    have hmem := List.mem_map_of_mem (fun v =>
      if v.id = u.id then { v with points := v.points - p.points } else v)
      (List.mem_of_find?_eq_some hu)
    dsimp only at hmem
    rwa [if_pos rfl] at hmem
  · intro hvu
    have hvid : v.id ≠ u.id := fun hid =>
      hvu (mem_eq_of_pairwise_key User.id (reachable_goodState hs).users_id_distinct
        hv (List.mem_of_find?_eq_some hu) hid)
    have hmem := List.mem_map_of_mem (fun v =>
      if v.id = u.id then { v with points := v.points - p.points } else v) hv
    dsimp only at hmem
    rwa [if_neg hvid] at hmem

/-- C2 witness: user 1 (balance 50) stakes 30 points: the request appears
with status open, unclaimed, and user 1's balance drops to exactly 20. -/
theorem C2_witness :
    create_request exS2 pA "t2" = .ok exS3
    ∧ exS3.requests = [{ id := 1, owner_id := 1, uid := "2476897412",
                           region := pyUpper "IND", proof_url := "http://proof",
                           points_requested := 30, status := "open", created_at := "t2",
                           claimed_by := none, claim_proof_url := none, completed_at := none }]
    ∧ exS3.users.map User.points = [20] := by
  obtain ⟨s', h1, h2, h3, h4⟩ :=
    C2_create_success exS2
      (Reachable.next _ (Reachable.next _ Reachable.init)) pA "t2"
      ⟨1, 1, "", 50, false, "t1"⟩ (by decide) (by rfl) (by decide)
  have hs3 : exS3 = s' := by
    show okState exS2 (create_request exS2 pA "t2") = s'
    rw [h1, okState_ok]
  exact ⟨hs3 ▸ h1, by rfl, by rfl⟩

theorem length_filter_eq_one {α : Type} {p : α → Bool} {l : List α}
    (hl : l.Pairwise (fun a b => ¬(p a = true ∧ p b = true)))
    {x : α} (hfind : l.find? p = some x) : (l.filter p).length = 1 := by
  induction l with
  | nil => simp at hfind
  | cons a tl ih =>
      rcases List.pairwise_cons.mp hl with ⟨ha, htl⟩
      cases hp : p a with
      | true =>
          have hnil : tl.filter p = [] :=
            List.filter_eq_nil_iff.mpr (fun y hy hpy => ha y hy ⟨hp, hpy⟩)
          simp [List.filter_cons, hp, hnil]
      | false =>
          have hf : tl.find? p = some x := by
            rwa [List.find?_cons_of_neg _ (by simp [hp])] at hfind
          simp [List.filter_cons, hp, ih htl hf]

/-- C8: `register` is idempotent and never errors on duplicates: after any
first `register` for an external id, a second `register` with any display
name returns "Already registered" and leaves the whole state — in particular
the stored user and its balance — unchanged, and exactly one user row with
that telegram id exists. -/
theorem C8_register_idempotent (s : DBState) (hs : Reachable s) (t : Int)
    (n1 n2 : Option String) (now1 now2 : String) :
    register ((register s t n1 now1).1) t n2 now2
      = ((register s t n1 now1).1, "Already registered")
    ∧ (((register s t n1 now1).1).users.filter
        (fun u => decide (u.telegram_id = t))).length = 1 := by
  have hg := reachable_goodState hs
  have hpair : s.users.Pairwise (fun a b =>
      ¬((fun u : User => decide (u.telegram_id = t)) a = true
        ∧ (fun u : User => decide (u.telegram_id = t)) b = true)) :=
    hg.users_tg_distinct.imp (fun hne h =>
      hne ((of_decide_eq_true h.1).trans (of_decide_eq_true h.2).symm))
  cases hfind : s.users.find? (fun u => decide (u.telegram_id = t)) with
  | some u =>
      have hs1 : (register s t n1 now1).1 = s := by
        unfold register
        rw [hfind]
      rw [hs1]
      constructor
      · unfold register
        rw [hfind]
      · exact length_filter_eq_one hpair hfind
  | none =>
      have hall : ∀ x ∈ s.users, ¬((fun u : User => decide (u.telegram_id = t)) x = true) :=
        List.find?_eq_none.mp hfind
      have hs1 : (register s t n1 now1).1 = { s with
          users := s.users ++ [{ id := s.next_user_id, telegram_id := t,
                                 username := n1.getD "", points := 0, is_vip := false,
                                 created_at := now1 }],
          next_user_id := s.next_user_id + 1 } := by
        unfold register
        rw [hfind]
      rw [hs1]
      have hfind2 : ((s.users ++ [{ id := s.next_user_id, telegram_id := t,
                                      username := n1.getD "", points := 0, is_vip := false,
                                      created_at := now1 }] :
            List User).find? (fun u => decide (u.telegram_id = t)))
          = some { id := s.next_user_id, telegram_id := t, username := n1.getD "",
                   points := 0, is_vip := false, created_at := now1 } := by
        rw [List.find?_append, hfind]
        simp
      constructor
      · unfold register
        dsimp only
        rw [hfind2]
      · dsimp only
        rw [List.filter_append, List.filter_eq_nil_iff.mpr hall]
        simp

/-- C8 witness: registering telegram id 7 twice (with different display
names) on the fresh database returns "Already registered" the second time,
changes nothing, and leaves exactly one matching user row. -/
theorem C8_witness :
    register ((register initState 7 (some "alice") "t0").1) 7 none "t9"
      = ((register initState 7 (some "alice") "t0").1, "Already registered")
    ∧ (((register initState 7 (some "alice") "t0").1).users.filter
        (fun u => decide (u.telegram_id = 7))).length = 1 :=
  C8_register_idempotent initState Reachable.init 7 (some "alice") none "t0" "t9"

/-! ### Claim C5: the request lifecycle state machine -/

theorem mem_map_key_eq {α β : Type} (key : α → β) (f : α → α)
    (hf : ∀ x, key (f x) = key x) {l : List α}
    (hl : l.Pairwise (fun a b => key a ≠ key b)) {x y : α}
    (hx : x ∈ l) (hy : y ∈ l.map f) (hxy : key y = key x) : y = f x := by
  rcases List.mem_map.mp hy with ⟨z, hz, rfl⟩
  have hzx : z = x := mem_eq_of_pairwise_key key hl hz hx (by rw [← hf z]; exact hxy)
  rw [hzx]

theorem mem_append_key_eq {α β : Type} (key : α → β) {l : List α} {w : α}
    (hw : ∀ x ∈ l, key x ≠ key w)
    (hl : l.Pairwise (fun a b => key a ≠ key b)) {x y : α}
    (hx : x ∈ l) (hy : y ∈ l ++ [w]) (hxy : key y = key x) : y = x := by
  rcases List.mem_append.mp hy with h | h
  · exact mem_eq_of_pairwise_key key hl h hx hxy
  · simp at h
    subst h
    exact absurd hxy.symm (hw x hx)

/-- C5: in every reachable state each request's status is exactly one of
`open`, `claimed`, `completed`; and across any single operation a request can
only move forward in that order, its `points_requested` never changes, and
its `claimed_by`, once set, never changes. -/
theorem C5_status_machine (s : DBState) (hs : Reachable s) (op : Op) :
    (∀ r ∈ s.requests,
        r.status = "open" ∨ r.status = "claimed" ∨ r.status = "completed")
    ∧ (∀ r ∈ s.requests, ∀ r' ∈ (step s op).requests, r'.id = r.id →
        statusRank r.status ≤ statusRank r'.status
        ∧ r'.points_requested = r.points_requested
        ∧ (∀ k, r.claimed_by = some k → r'.claimed_by = some k)) := by
  have hg := reachable_goodState hs
  refine ⟨hg.reqs_status, ?_⟩
  intro r hr r' hr' hid
  cases op with
  | register t un n =>
      have hshape : (step s (Op.register t un n)).requests = s.requests := by
        dsimp only [step]
        unfold register
        cases hfind : s.users.find? (fun u => decide (u.telegram_id = t)) with
        | some u => rfl
        | none => rfl
      rw [hshape] at hr'
      have hrr : r' = r :=
        mem_eq_of_pairwise_key Request.id hg.reqs_id_distinct hr' hr hid
      subst hrr
      exact ⟨Nat.le_refl _, rfl, fun k hk => hk⟩
  | create p n =>
      by_cases hv : ¬ (1 ≤ p.points ∧ p.points ≤ 100)
      · have hshape : (step s (Op.create p n)).requests = s.requests := by
          dsimp only [step]
          unfold create_request
          rw [if_pos hv]
          rfl
        rw [hshape] at hr'
        have hrr : r' = r :=
          mem_eq_of_pairwise_key Request.id hg.reqs_id_distinct hr' hr hid
        subst hrr
        exact ⟨Nat.le_refl _, rfl, fun k hk => hk⟩
      · cases hfu : s.users.find? (fun u => decide (u.telegram_id = p.telegram_id)) with
        | none =>
            have hshape : (step s (Op.create p n)).requests = s.requests := by
              dsimp only [step]
              unfold create_request
              rw [if_neg hv, hfu]
              rfl
            rw [hshape] at hr'
            have hrr : r' = r :=
              mem_eq_of_pairwise_key Request.id hg.reqs_id_distinct hr' hr hid
            subst hrr
            exact ⟨Nat.le_refl _, rfl, fun k hk => hk⟩
        | some user =>
            by_cases hlt : user.points < p.points
            · have hshape : (step s (Op.create p n)).requests = s.requests := by
                dsimp only [step]
                unfold create_request
                rw [if_neg hv, hfu]
                dsimp only
                rw [if_pos hlt]
                rfl
              rw [hshape] at hr'
              have hrr : r' = r :=
                mem_eq_of_pairwise_key Request.id hg.reqs_id_distinct hr' hr hid
              subst hrr
              exact ⟨Nat.le_refl _, rfl, fun k hk => hk⟩
            · have hshape : (step s (Op.create p n)).requests = s.requests ++
                  [{ id := s.next_request_id, owner_id := user.id, uid := p.uid,
                     region := pyUpper p.region, proof_url := p.proof_url,
                     points_requested := p.points, status := "open",
                     created_at := n, claimed_by := none,
                     claim_proof_url := none, completed_at := none }] := by
                dsimp only [step]
                unfold create_request
                rw [if_neg hv, hfu]
                dsimp only
                rw [if_neg hlt]
                rfl
              rw [hshape] at hr'
              have hrr : r' = r :=
                mem_append_key_eq Request.id
                  (fun x hx => Nat.ne_of_lt (hg.reqs_id_bound x hx))
                  hg.reqs_id_distinct hr hr' hid
              subst hrr
              exact ⟨Nat.le_refl _, rfl, fun k hk => hk⟩
  | claim t rid =>
      cases hfind : s.requests.find? (fun x => decide (x.id = rid)) with
      | none =>
          have hshape : (step s (Op.claim t rid)).requests = s.requests := by
            dsimp only [step]
            unfold claim
            rw [hfind]
            rfl
          rw [hshape] at hr'
          have hrr : r' = r :=
            mem_eq_of_pairwise_key Request.id hg.reqs_id_distinct hr' hr hid
          subst hrr
          exact ⟨Nat.le_refl _, rfl, fun k hk => hk⟩
      | some req =>
          by_cases hst : req.status = "open"
          · cases hfu : s.users.find? (fun u => decide (u.telegram_id = t)) with
            | none =>
                have hshape : (step s (Op.claim t rid)).requests = s.requests := by
                  dsimp only [step]
                  unfold claim
                  rw [hfind]
                  dsimp only
                  rw [if_neg (not_not_intro hst), hfu]
                  rfl
                rw [hshape] at hr'
                have hrr : r' = r :=
                  mem_eq_of_pairwise_key Request.id hg.reqs_id_distinct hr' hr hid
                subst hrr
                exact ⟨Nat.le_refl _, rfl, fun k hk => hk⟩
            | some claimer =>
                by_cases hself : claimer.id = req.owner_id
                · have hshape : (step s (Op.claim t rid)).requests = s.requests := by
                    dsimp only [step]
                    unfold claim
                    rw [hfind]
                    dsimp only
                    rw [if_neg (not_not_intro hst), hfu]
                    dsimp only
                    rw [if_pos hself]
                    rfl
                  rw [hshape] at hr'
                  have hrr : r' = r :=
                    mem_eq_of_pairwise_key Request.id hg.reqs_id_distinct hr' hr hid
                  subst hrr
                  exact ⟨Nat.le_refl _, rfl, fun k hk => hk⟩
                · have hshape : (step s (Op.claim t rid)).requests =
                      s.requests.map (fun x =>
                        if x.id = req.id then
                          { x with status := "claimed", claimed_by := some claimer.id }
                        else x) := by
                    dsimp only [step]
                    unfold claim
                    rw [hfind]
                    dsimp only
                    rw [if_neg (not_not_intro hst), hfu]
                    dsimp only
                    rw [if_neg hself]
                    rfl
                  rw [hshape] at hr'
                  have hr'eq : r' = (fun x =>
                      if x.id = req.id then
                        { x with status := "claimed", claimed_by := some claimer.id }
                      else x) r :=
                    mem_map_key_eq Request.id
                      (fun x => if x.id = req.id then
                        { x with status := "claimed", claimed_by := some claimer.id }
                      else x)
                      (fun x => by dsimp only; split <;> rfl)
                      hg.reqs_id_distinct hr hr' hid
                  by_cases hrid : r.id = req.id
                  · have hrreq : r = req :=
                      mem_eq_of_pairwise_key Request.id hg.reqs_id_distinct hr
                        (List.mem_of_find?_eq_some hfind) hrid
                    have hstat : r.status = "open" := by rw [hrreq]; exact hst
                    have hr'val : r' = { r with status := "claimed",
                                                claimed_by := some claimer.id } := by
                      rw [hr'eq]
                      dsimp only
                      rw [if_pos hrid]
                    rw [hr'val]
                    refine ⟨?_, rfl, ?_⟩
                    · rw [hstat]
                      exact (show statusRank "open" ≤ statusRank "claimed" by decide)
                    · intro k hk
                      rw [hg.reqs_open_unclaimed r hr hstat] at hk
                      cases hk
                  · have hr'val : r' = r := by
                      rw [hr'eq]
                      dsimp only
                      rw [if_neg hrid]
                    subst hr'val
                    exact ⟨Nat.le_refl _, rfl, fun k hk => hk⟩
          · have hshape : (step s (Op.claim t rid)).requests = s.requests := by
              dsimp only [step]
              unfold claim
              rw [hfind]
              dsimp only
              rw [if_pos hst]
              rfl
            rw [hshape] at hr'
            have hrr : r' = r :=
              mem_eq_of_pairwise_key Request.id hg.reqs_id_distinct hr' hr hid
            subst hrr
            exact ⟨Nat.le_refl _, rfl, fun k hk => hk⟩
  | confirm t rid pr n =>
      cases hfind : s.requests.find? (fun x => decide (x.id = rid)) with
      | none =>
          have hshape : (step s (Op.confirm t rid pr n)).requests = s.requests := by
            dsimp only [step]
            unfold confirm
            rw [hfind]
            rfl
          rw [hshape] at hr'
          have hrr : r' = r :=
            mem_eq_of_pairwise_key Request.id hg.reqs_id_distinct hr' hr hid
          subst hrr
          exact ⟨Nat.le_refl _, rfl, fun k hk => hk⟩
      | some req =>
          by_cases hst : req.status = "claimed"
          · cases hfu : s.users.find? (fun u => decide (u.telegram_id = t)) with
            | none =>
                have hshape : (step s (Op.confirm t rid pr n)).requests = s.requests := by
                  dsimp only [step]
                  unfold confirm
                  rw [hfind]
                  dsimp only
                  rw [if_neg (not_not_intro hst), hfu]
                  rfl
                rw [hshape] at hr'
                have hrr : r' = r :=
                  mem_eq_of_pairwise_key Request.id hg.reqs_id_distinct hr' hr hid
                subst hrr
                exact ⟨Nat.le_refl _, rfl, fun k hk => hk⟩
            | some claimer =>
                by_cases hwho : some claimer.id ≠ req.claimed_by
                · have hshape : (step s (Op.confirm t rid pr n)).requests = s.requests := by
                    dsimp only [step]
                    unfold confirm
                    rw [hfind]
                    dsimp only
                    rw [if_neg (not_not_intro hst), hfu]
                    dsimp only
                    rw [if_pos hwho]
                    rfl
                  rw [hshape] at hr'
                  have hrr : r' = r :=
                    mem_eq_of_pairwise_key Request.id hg.reqs_id_distinct hr' hr hid
                  subst hrr
                  exact ⟨Nat.le_refl _, rfl, fun k hk => hk⟩
                · have hshape : (step s (Op.confirm t rid pr n)).requests =
                      s.requests.map (fun x =>
                        if x.id = req.id then
                          { x with status := "completed", claim_proof_url := some pr,
                                   completed_at := some n }
                        else x) := by
                    dsimp only [step]
                    unfold confirm
                    rw [hfind]
                    dsimp only
                    rw [if_neg (not_not_intro hst), hfu]
                    dsimp only
                    rw [if_neg hwho]
                    rfl
                  rw [hshape] at hr'
                  have hr'eq : r' = (fun x =>
                      if x.id = req.id then
                        { x with status := "completed", claim_proof_url := some pr,
                                 completed_at := some n }
                      else x) r :=
                    mem_map_key_eq Request.id
                      (fun x => if x.id = req.id then
                        { x with status := "completed", claim_proof_url := some pr,
                                 completed_at := some n }
                      else x)
                      (fun x => by dsimp only; split <;> rfl)
                      hg.reqs_id_distinct hr hr' hid
                  by_cases hrid : r.id = req.id
                  · have hrreq : r = req :=
                      mem_eq_of_pairwise_key Request.id hg.reqs_id_distinct hr
                        (List.mem_of_find?_eq_some hfind) hrid
                    have hstat : r.status = "claimed" := by rw [hrreq]; exact hst
                    have hr'val : r' = { r with status := "completed", claim_proof_url := some pr, completed_at := some n } := by
                      rw [hr'eq]
                      dsimp only
                      rw [if_pos hrid]
                    rw [hr'val]
                    refine ⟨?_, rfl, fun k hk => hk⟩
                    rw [hstat]
                    exact (show statusRank "claimed" ≤ statusRank "completed" by decide)
                  · have hr'val : r' = r := by
                      rw [hr'eq]
                      dsimp only
                      rw [if_neg hrid]
                    subst hr'val
                    exact ⟨Nat.le_refl _, rfl, fun k hk => hk⟩
          · have hshape : (step s (Op.confirm t rid pr n)).requests = s.requests := by
              dsimp only [step]
              unfold confirm
              rw [hfind]
              dsimp only
              rw [if_pos hst]
              rfl
            rw [hshape] at hr'
            have hrr : r' = r :=
              mem_eq_of_pairwise_key Request.id hg.reqs_id_distinct hr' hr hid
            subst hrr
            exact ⟨Nat.le_refl _, rfl, fun k hk => hk⟩
  | admin t d sec =>
      have hshape : (step s (Op.admin t d sec)).requests = s.requests := by
        dsimp only [step]
        unfold admin_add_points
        split
        · rfl
        · cases hfu : s.users.find? (fun u => decide (u.telegram_id = t)) with
          | none => rfl
          | some u => rfl
      rw [hshape] at hr'
      have hrr : r' = r :=
        mem_eq_of_pairwise_key Request.id hg.reqs_id_distinct hr' hr hid
      subst hrr
      exact ⟨Nat.le_refl _, rfl, fun k hk => hk⟩
  | listOpen =>
      have hrr : r' = r :=
        mem_eq_of_pairwise_key Request.id hg.reqs_id_distinct hr' hr hid
      subst hrr
      exact ⟨Nat.le_refl _, rfl, fun k hk => hk⟩

/-- C5 witness: confirming claimed request 1 in the concrete scenario moves
its status forward (claimed → completed), with its stake and claimant
untouched. -/
theorem C5_witness :
    (exS5.requests.headI.status = "open" ∨ exS5.requests.headI.status = "claimed"
      ∨ exS5.requests.headI.status = "completed")
    ∧ statusRank exS5.requests.headI.status
        ≤ statusRank ((step exS5 (Op.confirm 2 1 "http://claimproof" "t4")).requests.headI.status)
    ∧ ((step exS5 (Op.confirm 2 1 "http://claimproof" "t4")).requests.headI.points_requested)
        = exS5.requests.headI.points_requested := by
  have h := C5_status_machine exS5
    (Reachable.next _ (Reachable.next _ (Reachable.next _ (Reachable.next _
      (Reachable.next _ Reachable.init)))))
    (Op.confirm 2 1 "http://claimproof" "t4")
  have h2 := h.2 exS5.requests.headI (by decide)
    ((step exS5 (Op.confirm 2 1 "http://claimproof" "t4")).requests.headI)
    (by decide) (by decide)
  exact ⟨h.1 _ (by decide), h2.1, h2.2.1⟩

/-! ### Claim C10: conservation of points -/

/-- C10: the quantity (sum of all balances) + (sum of stakes of open or
claimed requests) is unchanged by `create` (the debit moves into escrow), by
`claim` (no point movement), by `confirm` (the escrowed stake moves to the
claimant), and by `register` (a new zero balance); a successful admin
adjustment is the only operation that changes it, and it changes it by
exactly the delta. -/
theorem C10_conservation (s : DBState) (hs : Reachable s) :
    (∀ (p : CreateRequestIn) (now : String),
        ledgerTotal (step s (Op.create p now)) = ledgerTotal s)
    ∧ (∀ (t : Int) (rid : Nat), ledgerTotal (step s (Op.claim t rid)) = ledgerTotal s)
    ∧ (∀ (t : Int) (rid : Nat) (pr now : String),
        ledgerTotal (step s (Op.confirm t rid pr now)) = ledgerTotal s)
    ∧ (∀ (t : Int) (un : Option String) (now : String),
        ledgerTotal (step s (Op.register t un now)) = ledgerTotal s)
    ∧ (∀ (t d : Int) (sec : String) (s' : DBState),
        admin_add_points s t d sec = .ok s' → ledgerTotal s' = ledgerTotal s + d) := by
  have hg := reachable_goodState hs
  refine ⟨?_, ?_, ?_, ?_, ?_⟩
  · intro p now
    dsimp only [step]
    unfold create_request
    split
    · rfl
    · cases hfu : s.users.find? (fun u => decide (u.telegram_id = p.telegram_id)) with
      | none => rfl
      | some user =>
          dsimp only
          split
          · rfl
          · dsimp only [okState, ledgerTotal, totalBalance, totalEscrow]
            rw [sum_map_update User.id User.points
              (fun v => { v with points := v.points - p.points }) user.id
              hg.users_id_distinct (List.mem_of_find?_eq_some hfu) rfl]
            have hnew : escrowOf { id := s.next_request_id, owner_id := user.id, uid := p.uid, region := pyUpper p.region, proof_url := p.proof_url, points_requested := p.points, status := "open", created_at := now, claimed_by := none, claim_proof_url := none, completed_at := none } = p.points := by
              unfold escrowOf
              rw [if_pos (Or.inl rfl)]
            simp only [List.map_append, List.sum_append, List.map_cons, List.map_nil,
              List.sum_cons, List.sum_nil, hnew]
            ring
  · intro t rid
    dsimp only [step]
    unfold claim
    cases hfind : s.requests.find? (fun x => decide (x.id = rid)) with
    | none => rfl
    | some req =>
        dsimp only
        split
        · rfl
        · rename_i hst
          cases hfu : s.users.find? (fun u => decide (u.telegram_id = t)) with
          | none => rfl
          | some claimer =>
              dsimp only
              split
              · rfl
              · dsimp only [okState, ledgerTotal, totalBalance, totalEscrow]
                rw [sum_map_update Request.id escrowOf
                  (fun x => { x with status := "claimed", claimed_by := some claimer.id })
                  req.id hg.reqs_id_distinct (List.mem_of_find?_eq_some hfind) rfl]
                have hopen : req.status = "open" := not_not.mp hst
                have he : escrowOf { req with status := "claimed", claimed_by := some claimer.id } = escrowOf req := by
                  unfold escrowOf
                  rw [if_pos (Or.inr rfl), if_pos (Or.inl hopen)]
                rw [he]
                ring
  · intro t rid pr now
    dsimp only [step]
    unfold confirm
    cases hfind : s.requests.find? (fun x => decide (x.id = rid)) with
    | none => rfl
    | some req =>
        dsimp only
        split
        · rfl
        · rename_i hst
          cases hfu : s.users.find? (fun u => decide (u.telegram_id = t)) with
          | none => rfl
          | some claimer =>
              dsimp only
              split
              · rfl
              · dsimp only [okState, ledgerTotal, totalBalance, totalEscrow]
                rw [sum_map_update User.id User.points
                  (fun v => { v with points := v.points + req.points_requested })
                  claimer.id hg.users_id_distinct (List.mem_of_find?_eq_some hfu) rfl]
                rw [sum_map_update Request.id escrowOf
                  (fun x => { x with status := "completed", claim_proof_url := some pr, completed_at := some now })
                  req.id hg.reqs_id_distinct (List.mem_of_find?_eq_some hfind) rfl]
                have hclaimed : req.status = "claimed" := not_not.mp hst
                have he1 : escrowOf { req with status := "completed", claim_proof_url := some pr, completed_at := some now } = 0 := by
                  unfold escrowOf
                  rw [if_neg (fun h => by
                    rcases h with h | h
                    · exact absurd (show "completed" = "open" from h) (by decide)
                    · exact absurd (show "completed" = "claimed" from h) (by decide))]
                have he2 : escrowOf req = req.points_requested := by
                  unfold escrowOf
                  rw [if_pos (Or.inr hclaimed)]
                rw [he1, he2]
                ring
  · intro t un now
    dsimp only [step]
    unfold register
    cases hfind : s.users.find? (fun u => decide (u.telegram_id = t)) with
    | some u => rfl
    | none =>
        dsimp only [ledgerTotal, totalBalance, totalEscrow]
        simp only [List.map_append, List.sum_append, List.map_cons, List.map_nil,
          List.sum_cons, List.sum_nil]
        ring
  · intro t d sec s' h
    unfold admin_add_points at h
    split at h
    · simp at h
    · cases hfu : s.users.find? (fun u => decide (u.telegram_id = t)) with
      | none =>
          rw [hfu] at h
          simp at h
      | some u =>
          rw [hfu] at h
          dsimp only at h
          injection h with h'
          subst h'
          dsimp only [ledgerTotal, totalBalance, totalEscrow]
          rw [sum_map_update User.telegram_id User.points
            (fun v => { v with points := v.points + d }) t
            hg.users_tg_distinct (List.mem_of_find?_eq_some hfu)
            (by simpa using List.find?_some hfu)]
          dsimp only
          ring

/-- C10 witness: in the concrete scenario the conserved quantity is unchanged
by the concrete create, claim and confirm calls. -/
theorem C10_witness :
    ledgerTotal (step exS2 (Op.create pA "t2")) = ledgerTotal exS2
    ∧ ledgerTotal (step exS4 (Op.claim 2 1)) = ledgerTotal exS4
    ∧ ledgerTotal (step exS5 (Op.confirm 2 1 "http://claimproof" "t4")) = ledgerTotal exS5 :=
  ⟨(C10_conservation exS2 (Reachable.next _ (Reachable.next _ Reachable.init))).1 pA "t2",
   (C10_conservation exS4 (Reachable.next _ (Reachable.next _ (Reachable.next _
      (Reachable.next _ Reachable.init))))).2.1 2 1,
   (C10_conservation exS5 (Reachable.next _ (Reachable.next _ (Reachable.next _
      (Reachable.next _ (Reachable.next _ Reachable.init)))))).2.2.1 2 1 "http://claimproof" "t4"⟩

/-! ### Claim C9: the open-requests listing -/

theorem eq_of_perm_of_sorted_antisymm {α : Type} {R : α → α → Prop} :
    ∀ {l₁ l₂ : List α}, l₁.Perm l₂ → l₁.Pairwise R → l₂.Pairwise R →
      (∀ a ∈ l₁, ∀ b ∈ l₁, R a b → R b a → a = b) → l₁ = l₂ := by
  intro l₁
  induction l₁ with
  | nil =>
      intro l₂ hp _ _ _
      exact (hp.symm.eq_nil).symm
  | cons a t ih =>
      intro l₂ hp h1 h2 hanti
      cases l₂ with
      | nil => exact absurd hp.eq_nil (by simp)
      | cons b t₂ =>
          have hb1 : b ∈ a :: t := hp.symm.subset (List.mem_cons_self b t₂)
          have ha2 : a ∈ b :: t₂ := hp.subset (List.mem_cons_self a t)
          have hab : a = b := by
            rcases List.mem_cons.mp hb1 with h | hbt
            · exact h.symm
            · rcases List.mem_cons.mp ha2 with h | hat2
              · exact h
              · exact hanti a (List.mem_cons_self a t) b hb1
                  ((List.pairwise_cons.mp h1).1 b hbt)
                  ((List.pairwise_cons.mp h2).1 a hat2)
          subst hab
          have hp' : t.Perm t₂ := hp.cons_inv
          rw [ih hp' (List.pairwise_cons.mp h1).2 (List.pairwise_cons.mp h2).2
            (fun x hx y hy => hanti x (List.mem_cons_of_mem a hx) y
              (List.mem_cons_of_mem a hy))]

/-- C9 (counterexample): the query `ORDER BY created_at DESC` has no secondary
sort key, so on a reachable state with two open requests sharing one creation
timestamp both relative orders are admissible result sets.  In particular the
listing holding request 2 before request 1 is admissible yet violates the
claimed "timestamp descending, ties by ascending id" ordering — the
ascending-id tie-break and the resulting determinism are not guaranteed by the
code. -/
theorem C9_counterexample :
    IsOpenListing exT [exT.requests.getLastI, exT.requests.headI]
    ∧ IsOpenListing exT [exT.requests.headI, exT.requests.getLastI]
    ∧ ¬ ([exT.requests.getLastI, exT.requests.headI].Pairwise (fun a b =>
          b.created_at < a.created_at ∨ (a.created_at = b.created_at ∧ a.id < b.id))) :=
  ⟨⟨by decide, List.pairwise_pair.mpr (show ("t2" : String) ≤ "t2" from le_refl _)⟩,
   ⟨by decide, List.pairwise_pair.mpr (show ("t2" : String) ≤ "t2" from le_refl _)⟩,
   fun h => by
     rcases List.pairwise_pair.mp h with hlt | ⟨heq, hid⟩
     · exact absurd (show ("t2" : String) < "t2" from hlt) (lt_irrefl _)
     · exact absurd (show (2 : Nat) < 1 from hid) (by decide)⟩

/-- C9 (amended): every result set the query may return contains exactly the
requests whose status is `open`, is sorted by creation timestamp descending,
and the call has no side effect on the state; when the open requests carry
pairwise-distinct creation timestamps the result set is moreover uniquely
determined.  The relative order of requests with identical timestamps is left
unspecified by the code, so the ascending-id tie-break and unconditional
determinism of the original claim do not hold (see the counterexample). -/
theorem C9_list_open (s : DBState) (out : List Request)
    (hout : IsOpenListing s out) :
    (∀ r : Request, r ∈ out ↔ (r ∈ s.requests ∧ r.status = "open"))
    ∧ out.Pairwise (fun a b => b.created_at ≤ a.created_at)
    ∧ step s Op.listOpen = s
    ∧ (∀ out₂ : List Request, IsOpenListing s out₂ →
        (s.requests.filter (fun r => decide (r.status = "open"))).Pairwise
          (fun a b => a.created_at ≠ b.created_at) →
        out₂ = out) := by
  obtain ⟨hperm, hsort⟩ := hout
  refine ⟨?_, hsort, rfl, ?_⟩
  · intro r
    rw [hperm.mem_iff, List.mem_filter]
    simp
  · intro out₂ hout₂ hdist
    obtain ⟨hperm₂, hsort₂⟩ := hout₂
    refine eq_of_perm_of_sorted_antisymm (hperm₂.trans hperm.symm) hsort₂ hsort ?_
    intro a ha b hb hab hba
    exact mem_eq_of_pairwise_key Request.created_at hdist
      (hperm₂.subset ha) (hperm₂.subset hb) (le_antisymm hba hab)

/-- C9 witness: the amended theorem evaluated on the concrete two-request
state, with a concrete admissible listing: membership in the listing is
exactly openness of the request, and the call leaves the state unchanged. -/
theorem C9_witness :
    (exT.requests.headI ∈ [exT.requests.getLastI, exT.requests.headI]
      ↔ (exT.requests.headI ∈ exT.requests ∧ exT.requests.headI.status = "open"))
    ∧ step exT Op.listOpen = exT :=
  ⟨(C9_list_open exT [exT.requests.getLastI, exT.requests.headI]
      ⟨by decide, List.pairwise_pair.mpr (show ("t2" : String) ≤ "t2" from le_refl _)⟩).1
      exT.requests.headI,
   (C9_list_open exT [exT.requests.getLastI, exT.requests.headI]
      ⟨by decide, List.pairwise_pair.mpr (show ("t2" : String) ≤ "t2" from le_refl _)⟩).2.2.1⟩
